import Mathlib

/-!
# GetTransactions: block-range resolution and windowed aggregation

A shallow embedding of `helper.go` (package `main`).

* Go's `int64` is modelled by `Int` together with `wrap64`, the reduction of a
  mathematical integer into the two's-complement range; `uint64` is modelled by
  `Nat` reduced modulo `2 ^ 64`.
* A Go call either returns a pair `(value, err)`, or panics, or terminates the
  process (`log.Fatal`); `Outcome` keeps the three apart.
* The network is an explicit `World`: what each JSON-RPC request and each
  EtherScan GET is answered with, indexed by how many requests of that kind were
  sent before. The requests sent are recorded in the order they are sent.
* A Go `string` is a byte sequence; here it is a sequence of characters. The only
  bytes `hextoDecimal` distinguishes are ASCII (`x`, the sign characters, the
  digits and letters); every other character, like every byte above `0x7f`, is
  rejected by `strconv.ParseUint` as invalid syntax, so the two views agree.
-/

namespace Helper

/-! ## Errors and outcomes -/

/-- Error values that travel through `helper.go`. `ErrSyntax` and `ErrRange` are
the two sentinels wrapped by `strconv.NumError`; `Json` is an error returned by
`json.Unmarshal`; `Net` is an error returned by `http.Get` or `ioutil.ReadAll`. -/
inductive GoError where
  | ErrSyntax
  | ErrRange
  | ErrBase
  | ErrBitSize
  | Json (msg : String)
  | Net (msg : String)
  deriving DecidableEq, Repr

/-- How a Go function call ends. `ret v err` is an ordinary return of the pair
`(v, err)` with `err = none` for `nil`; `panic` is a run-time panic (here: index
out of range); `exit` is `log.Fatal`, which prints and calls `os.Exit(1)`;
`outOfFuel` is reserved to the loop model and never produced by
`GetTransactions` (see `GetTransactions_fuel_suffices`). -/
inductive Outcome (α : Type) where
  | ret (v : α) (err : Option GoError)
  | panic
  | exit
  | outOfFuel
  deriving DecidableEq, Repr

/-! ## Machine integers -/

/-- Reduction of a mathematical integer to the value an `int64` holds after
two's-complement wrap-around. -/
def wrap64 (x : Int) : Int := (x + 2 ^ 63) % 2 ^ 64 - 2 ^ 63

/-- Go's `/` on `int64` with a positive constant divisor: the quotient truncated
toward zero. -/
def quoInt64 (a b : Int) : Int := Int.tdiv a b

/-! ## `strings.SplitAfter` and `strconv.ParseInt` (Go standard library) -/

/-- `strings.SplitAfter(s, sep)` for a one-character separator: `s` is cut after
every occurrence of `sep`; a string with `k` occurrences yields `k + 1` pieces,
the last of which may be empty. -/
def SplitAfter : List Char → Char → List (List Char)
  | [], _ => [[]]
  | c :: cs, sep =>
    if c = sep then [c] :: SplitAfter cs sep
    else
      match SplitAfter cs sep with
      | [] => [[c]]
      | p :: ps => (c :: p) :: ps

/-- `lower(c)` of package `strconv`: `c | ('x' - 'X')`. -/
def lower (c : Nat) : Nat := c ||| 0x20

/-- The digit value `strconv.ParseUint` assigns to one input byte `c` before it
is compared with the base: `'0'..'9'` give `0..9`, a byte whose `lower` is in
`'a'..'z'` gives `10..35`, anything else is a syntax error (`none`). -/
def digitVal (c : Nat) : Option Nat :=
  if 48 ≤ c ∧ c ≤ 57 then some (c - 48)
  else if 97 ≤ lower c ∧ lower c ≤ 122 then some (lower c - 97 + 10)
  else none

/-- The digit loop of `strconv.ParseUint` for an explicit base (no underscores):
`n` is the `uint64` accumulator, `cutoff` the smallest number with
`cutoff * base > maxUint64`, `maxVal = 2 ^ bitSize - 1`. -/
def ParseUint.loop (base cutoff maxVal : Nat) : List Char → Nat → Nat × Option GoError
  | [], n => (n, none)
  | c :: cs, n =>
    match digitVal c.toNat with
    | none => (0, some GoError.ErrSyntax)
    | some d =>
      if d ≥ base then (0, some GoError.ErrSyntax)
      else if n ≥ cutoff then (maxVal, some GoError.ErrRange)
      else
        let n0 := (n * base) % 2 ^ 64
        let n1 := (n0 + d) % 2 ^ 64
        if n1 < n0 ∨ n1 > maxVal then (maxVal, some GoError.ErrRange)
        else ParseUint.loop base cutoff maxVal cs n1

/-- `strconv.ParseUint(s, base, bitSize)` for an explicit base `2 ≤ base ≤ 36`.
Bit size `0` stands for the size of `int` (64). Base `0` (prefix detection and
underscores) is not used by `helper.go` and is not modelled: it is answered like
the other invalid bases. -/
def ParseUint (s : List Char) (base bitSize : Nat) : Nat × Option GoError :=
  if s = [] then (0, some GoError.ErrSyntax)
  else if ¬ (2 ≤ base ∧ base ≤ 36) then (0, some GoError.ErrBase)
  else
    let bits := if bitSize = 0 then 64 else bitSize
    if bits > 64 then (0, some GoError.ErrBitSize)
    else ParseUint.loop base ((2 ^ 64 - 1) / base + 1) (2 ^ bits - 1) s 0

/-- `strconv.ParseInt(s, base, bitSize)`: an optional sign, then `ParseUint`; an
error other than a range error is handed on with value `0`; otherwise the
unsigned value is checked against `cutoff = 2 ^ (bitSize - 1)`. -/
def ParseInt (s : List Char) (base bitSize : Nat) : Int × Option GoError :=
  match s with
  | [] => (0, some GoError.ErrSyntax)
  | c :: cs =>
    let neg := decide (c = '-')
    let body := if c = '+' ∨ c = '-' then cs else c :: cs
    let r := ParseUint body base bitSize
    if r.2 ≠ none ∧ r.2 ≠ some GoError.ErrRange then (0, r.2)
    else
      let bits := if bitSize = 0 then 64 else bitSize
      let cutoff : Nat := 2 ^ (bits - 1)
      if ¬ neg ∧ r.1 ≥ cutoff then ((cutoff : Int) - 1, some GoError.ErrRange)
      else if neg ∧ r.1 > cutoff then (-(cutoff : Int), some GoError.ErrRange)
      else if neg then (-(r.1 : Int), none)
      else ((r.1 : Int), none)

/-! ## `hextoDecimal` -/

/-- `hextoDecimal(hexinput)`: `rmPrefix := strings.SplitAfter(hexinput, "x")`,
then `strconv.ParseInt(rmPrefix[1], 16, 32)`. Indexing `rmPrefix[1]` panics when
the input holds no `x`. On a parse error the function returns `(-1, err)`. -/
def hextoDecimal (hexinput : String) : Outcome Int :=
  match (SplitAfter hexinput.data 'x').get? 1 with
  | none => Outcome.panic
  | some seg =>
    match ParseInt seg 16 32 with
    | (_, some err) => Outcome.ret (-1) (some err)
    | (x, none) => Outcome.ret x none

/-! ## Wire records -/

/-- A single transaction of the EtherScan response (`TransactionBlockEtherScan`). -/
structure TransactionBlockEtherScan where
  BlockHash : String
  BlockNumber : String
  Confirmations : String
  ContractAddress : String
  CumulativeGasUsed : String
  From : String
  Gas : String
  GasPrice : String
  GasUsed : String
  Hash : String
  Input : String
  IsError : String
  Nonce : String
  TimeStamp : String
  To : String
  TransactionIndex : String
  Txreceipt_status : String
  Value : String
  deriving DecidableEq, Repr

/-- The varying parts of one EtherScan GET issued by `GetTransactions`: the
address and the two block numbers that are formatted into the URL. -/
structure Request where
  address : String
  startblock : Int
  endblock : Int
  deriving DecidableEq, Repr

/-- `strconv.FormatInt(i, 10)`. -/
def FormatInt (i : Int) : String := toString i

/-- The value of `etherScanKey` in `GetTransactions` (left empty in the source). -/
def etherScanKey : String := ""

/-- The URL `GetTransactions` builds for one window. -/
def etherScanUrl (req : Request) : String :=
  "https://api.etherscan.io/api?module=account&action=txlist&address=" ++ req.address ++
    "&startblock=" ++ FormatInt req.startblock ++ "&endblock=" ++ FormatInt req.endblock ++
    "&sort=asc&apikey=" ++ etherScanKey

/-- The answer to one `eth_blockNumber` request as `GetLatestBlockNumber` sees
it. The error of `httpRequest` is dropped by the code (`body1, _ :=`), so a
transport failure shows up as `json.Unmarshal` failing on an empty body. -/
inductive OracleReply where
  | unmarshalError (err : GoError)
  | decoded (result : String)
  deriving DecidableEq, Repr

/-- The answer to one EtherScan GET as the loop body sees it: `http.Get` failed,
`ioutil.ReadAll` failed, `json.Unmarshal` failed, or the payload decoded, in
which case `result` is the `"result"` array when the key is present (`none`
leaves the field of the reused `Configuration` value untouched). -/
inductive FetchReply where
  | getError (err : GoError)
  | readError (err : GoError)
  | unmarshalError (err : GoError)
  | decoded (result : Option (List TransactionBlockEtherScan))
  deriving DecidableEq, Repr

/-- The two remote services. `blockNumber k` answers the `k`-th
`eth_blockNumber` request; `txlist k url` answers the `k`-th EtherScan GET when
it is sent to `url` (both counted from `0`). -/
structure World where
  blockNumber : Nat → OracleReply
  txlist : Nat → String → FetchReply

/-! ## Block oracle and range resolver -/

/-- `GetLatestBlockNumber()`, issued as the `k`-th `eth_blockNumber` request. -/
def GetLatestBlockNumber (w : World) (k : Nat) : Outcome Int :=
  match w.blockNumber k with
  | OracleReply.unmarshalError err => Outcome.ret 0 (some err)
  | OracleReply.decoded result =>
    match hextoDecimal result with
    | Outcome.ret _ (some err) => Outcome.ret 0 (some err)
    | Outcome.ret blockNumberInt none => Outcome.ret blockNumberInt none
    | Outcome.panic => Outcome.panic
    | Outcome.exit => Outcome.exit
    | Outcome.outOfFuel => Outcome.outOfFuel

/-- The constant `blocksPerDay` of `GetStartingBlockNumber`. -/
def blocksPerDay : Int := 5760

/-- `GetStartingBlockNumber(days)`, whose oracle read is the `k`-th
`eth_blockNumber` request: `latestBlockNumber - (blocksPerDay * days)` in
`int64` arithmetic. -/
def GetStartingBlockNumber (w : World) (k : Nat) (days : Int) : Outcome Int :=
  match GetLatestBlockNumber w k with
  | Outcome.ret _ (some err) => Outcome.ret 0 (some err)
  | Outcome.ret latestBlockNumber none =>
    Outcome.ret (wrap64 (latestBlockNumber - wrap64 (blocksPerDay * days))) none
  | Outcome.panic => Outcome.panic
  | Outcome.exit => Outcome.exit
  | Outcome.outOfFuel => Outcome.outOfFuel

/-! ## The aggregator -/

/-- The constant `blocksPerCall` of `GetTransactions`. -/
def blocksPerCall : Int := 1920

/-- The local variables of `GetTransactions` that change in the loop, and the
EtherScan requests sent so far (oldest first). `transactionlistResult` is the
field `transactionlist.Result`, with `[]` for `nil`. -/
structure LoopState where
  counter : Int
  FullListOfTransactions : List TransactionBlockEtherScan
  transactionlistResult : List TransactionBlockEtherScan
  calls : List Request
  deriving DecidableEq, Repr

/-- What a call of `GetTransactions` amounts to: how it ended and the EtherScan
requests it sent, in order. A returned `nil` slice is the empty list. -/
structure Run where
  outcome : Outcome (List TransactionBlockEtherScan)
  calls : List Request
  deriving DecidableEq, Repr

/-- The window requested when the loop counter is `counter`. -/
def windowRequest (address : String) (startingblock counter : Int) : Request :=
  { address := address
    startblock := wrap64 (startingblock + wrap64 (blocksPerCall * counter))
    endblock := wrap64 (startingblock + wrap64 (blocksPerCall * wrap64 (counter + 1))) }

/-- The inner loop `for i := 0; i < len(transactionlist.Result); i++`, appending
the elements one at a time. -/
def appendEach (full : List TransactionBlockEtherScan) :
    List TransactionBlockEtherScan → List TransactionBlockEtherScan
  | [] => full
  | t :: ts => appendEach (full ++ [t]) ts

/-- The loop `for counter < limit` of `GetTransactions`; `fuel` bounds the number
of iterations still allowed. -/
def GetTransactions.loop (w : World) (address : String) (startingblock limit : Int) :
    Nat → LoopState → Run
  | fuel, st =>
    if st.counter < limit then
      match fuel with
      | 0 => { outcome := Outcome.outOfFuel, calls := st.calls }
      | fuel + 1 =>
        let req := windowRequest address startingblock st.counter
        let calls := st.calls ++ [req]
        match w.txlist st.calls.length (etherScanUrl req) with
        | FetchReply.getError _ => { outcome := Outcome.exit, calls := calls }
        | FetchReply.readError _ => { outcome := Outcome.exit, calls := calls }
        | FetchReply.unmarshalError err2 =>
          { outcome := Outcome.ret [] (some err2), calls := calls }
        | FetchReply.decoded result =>
          let decodedResult := result.getD st.transactionlistResult
          GetTransactions.loop w address startingblock limit fuel
            { counter := wrap64 (st.counter + 1)
              FullListOfTransactions := appendEach st.FullListOfTransactions decodedResult
              transactionlistResult := []
              calls := calls }
    else { outcome := Outcome.ret st.FullListOfTransactions none, calls := st.calls }

/-- `GetTransactions(address, days)`. The first oracle read happens inside
`GetStartingBlockNumber`, the second directly; `limit` is
`(currBlockNumber - startingblock) / blocksPerCall`. The loop needs at most
`limit` iterations, which is the fuel it is given. -/
def GetTransactions (w : World) (address : String) (days : Int) : Run :=
  match GetStartingBlockNumber w 0 days with
  | Outcome.ret _ (some err) => { outcome := Outcome.ret [] (some err), calls := [] }
  | Outcome.panic => { outcome := Outcome.panic, calls := [] }
  | Outcome.exit => { outcome := Outcome.exit, calls := [] }
  | Outcome.outOfFuel => { outcome := Outcome.outOfFuel, calls := [] }
  | Outcome.ret startingblock none =>
    match GetLatestBlockNumber w 1 with
    | Outcome.ret _ (some err) => { outcome := Outcome.ret [] (some err), calls := [] }
    | Outcome.panic => { outcome := Outcome.panic, calls := [] }
    | Outcome.exit => { outcome := Outcome.exit, calls := [] }
    | Outcome.outOfFuel => { outcome := Outcome.outOfFuel, calls := [] }
    | Outcome.ret currBlockNumber none =>
      let limit := quoInt64 (wrap64 (currBlockNumber - startingblock)) blocksPerCall
      GetTransactions.loop w address startingblock limit limit.toNat
        { counter := 0, FullListOfTransactions := [], transactionlistResult := [], calls := [] }

/-! ## Reference notions used to state the properties -/

/-- A base-16 digit: `0-9`, `a-f` or `A-F`. -/
def isHexDigit (c : Char) : Prop :=
  (48 ≤ c.toNat ∧ c.toNat ≤ 57) ∨ (97 ≤ c.toNat ∧ c.toNat ≤ 102) ∨ (65 ≤ c.toNat ∧ c.toNat ≤ 70)

instance (c : Char) : Decidable (isHexDigit c) := by
  unfold isHexDigit; infer_instance

/-- The value of a base-16 digit. -/
def hexDigitValue (c : Char) : Nat :=
  if c.toNat ≤ 57 then c.toNat - 48
  else if 97 ≤ c.toNat then c.toNat - 87
  else c.toNat - 55

/-- Horner evaluation of a base-16 digit string on top of the value `acc`. -/
def hexFold (acc : Nat) (ds : List Char) : Nat :=
  ds.foldl (fun a c => 16 * a + hexDigitValue c) acc

/-- The integer whose base-16 representation is the digit string `ds`. -/
def hexValue (ds : List Char) : Nat := hexFold 0 ds

/-- A string with one optional leading sign character removed. -/
def dropSign : List Char → List Char
  | [] => []
  | c :: cs => if c = '+' ∨ c = '-' then cs else c :: cs

/-- The piece `strings.SplitAfter(s, "x")` starts with: `s` up to and including
its first `x`, or all of `s` when it holds none. -/
def firstPiece : List Char → List Char
  | [] => []
  | c :: cs => if c = 'x' then [c] else c :: firstPiece cs

/-- The value of `limit` in `GetTransactions`: the number of windows planned for
the starting block `start` and the current block `tip`. -/
def windowCount (start tip : Int) : Int :=
  quoInt64 (wrap64 (tip - start)) blocksPerCall

/-- The transactions one GET contributes to the result: the `"result"` array of
a decoded payload, nothing when the payload has none. -/
def FetchReply.payload : FetchReply → List TransactionBlockEtherScan
  | FetchReply.decoded (some result) => result
  | _ => []

/-- The GET went through: transport, body read and decoding all succeeded. -/
def FetchReply.succeeded (r : FetchReply) : Prop := ∃ result, r = FetchReply.decoded result

/-- The state the loop of `GetTransactions` starts from. -/
def initialState : LoopState :=
  { counter := 0, FullListOfTransactions := [], transactionlistResult := [], calls := [] }

/-- The state reached after the windows `i, …, i + n - 1` were fetched with
success, starting from a state at counter `i`. -/
def stateAfter (w : World) (address : String) (start : Int) (st : LoopState) (i n : Nat) :
    LoopState :=
  { counter := ((i + n : Nat) : Int)
    FullListOfTransactions := st.FullListOfTransactions ++
      ((List.range' i n).map fun j =>
        (w.txlist j (etherScanUrl (windowRequest address start (j : Int)))).payload).flatten
    transactionlistResult := []
    calls := st.calls ++
      (List.range' i n).map fun j : Nat => windowRequest address start (j : Int) }

/-- A transaction record whose only filled field is the block number. -/
def txAt (blockNumber : String) : TransactionBlockEtherScan :=
  { BlockHash := "", BlockNumber := blockNumber, Confirmations := "", ContractAddress := "",
    CumulativeGasUsed := "", From := "", Gas := "", GasPrice := "", GasUsed := "", Hash := "",
    Input := "", IsError := "", Nonce := "", TimeStamp := "", To := "", TransactionIndex := "",
    Txreceipt_status := "", Value := "" }

/-- The decimal reading of the `BlockNumber` field (EtherScan sends block numbers
as decimal strings). -/
def decimalBlockNumber (t : TransactionBlockEtherScan) : Nat :=
  t.BlockNumber.data.foldl (fun acc c => 10 * acc + (c.toNat - 48)) 0

/-- The end-to-end scenario: the oracle answers `0x2d00` (11520) to every read;
the first GET yields two transactions, the second one, every later one none. -/
def scenarioWorld : World :=
  { blockNumber := fun _ => OracleReply.decoded "0x2d00"
    txlist := fun k _ =>
      if k = 0 then FetchReply.decoded (some [txAt "5760", txAt "6000"])
      else if k = 1 then FetchReply.decoded (some [txAt "7680"])
      else FetchReply.decoded (some []) }

/-- The scenario with the `i`-th GET answered by `reply` instead. -/
def scenarioWith (i : Nat) (reply : FetchReply) : World :=
  { blockNumber := scenarioWorld.blockNumber
    txlist := fun k url => if k = i then reply else scenarioWorld.txlist k url }

/-- A world whose first oracle read is `0x2d00` (11520), whose later reads are
`0x-80000000` (a negative number, which `hextoDecimal` accepts), and whose every
GET is answered by `reply`. -/
def negativeTipWorld (reply : FetchReply) : World :=
  { blockNumber := fun k =>
      if k = 0 then OracleReply.decoded "0x2d00" else OracleReply.decoded "0x-80000000"
    txlist := fun _ _ => reply }

/-! ## Machine-integer facts -/

theorem wrap64_eq_self {x : Int} (h1 : -2 ^ 63 ≤ x) (h2 : x < 2 ^ 63) : wrap64 x = x := by
  unfold wrap64; omega

theorem wrap64_range (x : Int) : -2 ^ 63 ≤ wrap64 x ∧ wrap64 x < 2 ^ 63 := by
  unfold wrap64; omega

/-! ## The digit table of `strconv.ParseUint` -/

theorem lower_ge_of_ge {n : Nat} (h : 128 ≤ n) : 128 ≤ lower n := by
  obtain ⟨i, hi, hbit⟩ := Nat.ge_two_pow_implies_high_bit_true (show n ≥ 2 ^ 7 from h)
  have hb : (lower n).testBit i = true := by
    unfold lower; rw [Nat.testBit_or, hbit]; rfl
  have h1 := Nat.testBit_implies_ge hb
  have h2 : 2 ^ 7 ≤ 2 ^ i := Nat.pow_le_pow_right (by decide) hi
  omega

theorem digitVal_small : ∀ n < 128,
    digitVal n =
      if 48 ≤ n ∧ n ≤ 57 then some (n - 48)
      else if 97 ≤ n ∧ n ≤ 122 then some (n - 87)
      else if 65 ≤ n ∧ n ≤ 90 then some (n - 55)
      else none := by
  decide

theorem digitVal_large {n : Nat} (h : 128 ≤ n) : digitVal n = none := by
  have := lower_ge_of_ge h
  unfold digitVal
  rw [if_neg (by omega), if_neg (by omega)]

theorem digitVal_of_isHexDigit {c : Char} (h : isHexDigit c) :
    digitVal c.toNat = some (hexDigitValue c) ∧ hexDigitValue c < 16 := by
  unfold isHexDigit at h
  have hs : c.toNat < 128 := by omega
  rw [digitVal_small _ hs]
  unfold hexDigitValue
  rcases h with h | h | h
  · rw [if_pos h, if_pos h.2]; exact ⟨rfl, by omega⟩
  · rw [if_neg (by omega), if_pos (by omega), if_neg (by omega), if_pos h.1]
    exact ⟨rfl, by omega⟩
  · rw [if_neg (by omega), if_neg (by omega), if_pos (by omega), if_neg (by omega),
      if_neg (by omega)]
    exact ⟨rfl, by omega⟩

theorem digitVal_of_not_isHexDigit {c : Char} (h : ¬ isHexDigit c) :
    digitVal c.toNat = none ∨ ∃ d, digitVal c.toNat = some d ∧ 16 ≤ d := by
  unfold isHexDigit at h
  by_cases hs : c.toNat < 128
  · rw [digitVal_small _ hs]
    by_cases h1 : 48 ≤ c.toNat ∧ c.toNat ≤ 57
    · exact absurd (Or.inl h1) h
    · rw [if_neg h1]
      by_cases h2 : 97 ≤ c.toNat ∧ c.toNat ≤ 122
      · rw [if_pos h2]; exact Or.inr ⟨_, rfl, by omega⟩
      · rw [if_neg h2]
        by_cases h3 : 65 ≤ c.toNat ∧ c.toNat ≤ 90
        · rw [if_pos h3]; exact Or.inr ⟨_, rfl, by omega⟩
        · rw [if_neg h3]; exact Or.inl rfl
  · exact Or.inl (digitVal_large (by omega))

theorem isHexDigit_ne_marker {c : Char} (h : isHexDigit c) :
    c ≠ 'x' ∧ c ≠ '+' ∧ c ≠ '-' := by
  unfold isHexDigit at h
  refine ⟨?_, ?_, ?_⟩ <;> rintro rfl <;> revert h <;> decide

/-! ## `ParseUint` on digit strings -/

theorem hexFold_cons (acc : Nat) (c : Char) (cs : List Char) :
    hexFold acc (c :: cs) = hexFold (16 * acc + hexDigitValue c) cs := rfl

theorem le_hexFold (acc : Nat) (ds : List Char) : acc ≤ hexFold acc ds := by
  induction ds generalizing acc with
  | nil => exact Nat.le_refl _
  | cons c cs ih =>
    rw [hexFold_cons]
    exact Nat.le_trans (by omega) (ih _)

/-- On a string of base-16 digits the 32-bit digit loop returns the Horner value
when it fits in 32 bits and a range error otherwise. -/
theorem ParseUint_loop_hex (ds : List Char) (n : Nat) (hds : ∀ c ∈ ds, isHexDigit c)
    (hn : n ≤ 2 ^ 32 - 1) :
    ParseUint.loop 16 ((2 ^ 64 - 1) / 16 + 1) (2 ^ 32 - 1) ds n =
      if hexFold n ds ≤ 2 ^ 32 - 1 then (hexFold n ds, none)
      else (2 ^ 32 - 1, some GoError.ErrRange) := by
  induction ds generalizing n with
  | nil =>
    unfold ParseUint.loop
    show (n, none) = if n ≤ 2 ^ 32 - 1 then (n, none) else _
    rw [if_pos hn]
  | cons c cs ih =>
    obtain ⟨hd, hlt⟩ := digitVal_of_isHexDigit (hds c (List.mem_cons_self _ _))
    have hcs : ∀ c ∈ cs, isHexDigit c := fun c hc => hds c (List.mem_cons_of_mem _ hc)
    rw [hexFold_cons]
    unfold ParseUint.loop
    rw [hd]
    simp only []
    rw [if_neg (by omega), if_neg (by omega)]
    have e0 : n * 16 % 2 ^ 64 = n * 16 := Nat.mod_eq_of_lt (by omega)
    have e1 : (n * 16 + hexDigitValue c) % 2 ^ 64 = n * 16 + hexDigitValue c :=
      Nat.mod_eq_of_lt (by omega)
    rw [e0, e1, Nat.mul_comm n 16]
    by_cases hbig : 16 * n + hexDigitValue c > 2 ^ 32 - 1
    · rw [if_pos (Or.inr hbig)]
      have := le_hexFold (16 * n + hexDigitValue c) cs
      rw [if_neg (by omega)]
    · rw [if_neg (by omega)]
      exact ih _ hcs (by omega)

/-- A range error of the digit loop comes with the value `maxVal`. -/
theorem ParseUint_loop_range (base cutoff maxVal : Nat) (ds : List Char) :
    ∀ (n v : Nat), ParseUint.loop base cutoff maxVal ds n = (v, some GoError.ErrRange) →
      v = maxVal := by
  induction ds with
  | nil => intro n v h; cases h
  | cons c cs ih =>
    intro n v h
    unfold ParseUint.loop at h
    split at h
    · cases h
    · simp only [] at h
      split at h
      · cases h
      · split at h
        · cases h; rfl
        · split at h
          · cases h; rfl
          · exact ih _ _ h

/-- A string holding a character that is not a base-16 digit makes the digit
loop fail. -/
theorem ParseUint_loop_bad (cutoff maxVal : Nat) (ds : List Char) (n : Nat)
    (hds : ∃ c ∈ ds, ¬ isHexDigit c) :
    ∃ v e, ParseUint.loop 16 cutoff maxVal ds n = (v, some e) := by
  induction ds generalizing n with
  | nil => obtain ⟨c, hc, _⟩ := hds; cases hc
  | cons c cs ih =>
    unfold ParseUint.loop
    cases hd : digitVal c.toNat with
    | none => exact ⟨_, _, rfl⟩
    | some d =>
      simp only []
      by_cases h16 : d ≥ 16
      · rw [if_pos h16]; exact ⟨_, _, rfl⟩
      · rw [if_neg h16]
        by_cases hcut : n ≥ cutoff
        · rw [if_pos hcut]; exact ⟨_, _, rfl⟩
        · rw [if_neg hcut]
          split
          · exact ⟨_, _, rfl⟩
          · apply ih
            obtain ⟨b, hb, hbad⟩ := hds
            rcases List.mem_cons.mp hb with rfl | hb
            · rcases digitVal_of_not_isHexDigit hbad with h | ⟨d', h, hd'⟩
              · rw [h] at hd; cases hd
              · rw [h] at hd; cases hd; omega
            · exact ⟨b, hb, hbad⟩

/-! ## `strings.SplitAfter` -/

theorem SplitAfter_eq_firstPiece (l : List Char) :
    ∃ ps, SplitAfter l 'x' = firstPiece l :: ps := by
  induction l with
  | nil => exact ⟨[], rfl⟩
  | cons c cs ih =>
    obtain ⟨ps, hps⟩ := ih
    unfold SplitAfter firstPiece
    by_cases hc : c = 'x'
    · rw [if_pos hc, if_pos hc]; exact ⟨_, rfl⟩
    · rw [if_neg hc, if_neg hc, hps]; exact ⟨_, rfl⟩

theorem SplitAfter_no_marker (l : List Char) (h : 'x' ∉ l) : SplitAfter l 'x' = [l] := by
  induction l with
  | nil => rfl
  | cons c cs ih =>
    have hc : c ≠ 'x' := fun e => h (e ▸ List.mem_cons_self _ _)
    have hcs : 'x' ∉ cs := fun e => h (List.mem_cons_of_mem _ e)
    unfold SplitAfter
    rw [if_neg hc, ih hcs]

theorem SplitAfter_cons_marker (cs : List Char) :
    SplitAfter ('x' :: cs) 'x' = ['x'] :: SplitAfter cs 'x' := by
  rw [SplitAfter, if_pos rfl]

theorem SplitAfter_cons_other (c : Char) (cs p : List Char) (ps : List (List Char))
    (hc : c ≠ 'x') (h : SplitAfter cs 'x' = p :: ps) :
    SplitAfter (c :: cs) 'x' = (c :: p) :: ps := by
  rw [SplitAfter, if_neg hc, h]

theorem SplitAfter_marker (pre rest : List Char) (h : 'x' ∉ pre) :
    SplitAfter (pre ++ 'x' :: rest) 'x' = (pre ++ ['x']) :: SplitAfter rest 'x' := by
  induction pre with
  | nil => exact SplitAfter_cons_marker rest
  | cons c cs ih =>
    have hc : c ≠ 'x' := fun e => h (e ▸ List.mem_cons_self _ _)
    have hcs : 'x' ∉ cs := fun e => h (List.mem_cons_of_mem _ e)
    exact SplitAfter_cons_other c _ _ _ hc (ih hcs)

theorem SplitAfter_second (pre rest : List Char) (h : 'x' ∉ pre) :
    (SplitAfter (pre ++ 'x' :: rest) 'x').get? 1 = some (firstPiece rest) := by
  obtain ⟨ps, hps⟩ := SplitAfter_eq_firstPiece rest
  rw [SplitAfter_marker pre rest h, hps]; rfl

theorem firstPiece_eq_nil {l : List Char} (h : firstPiece l = []) : l = [] := by
  cases l with
  | nil => rfl
  | cons c cs =>
    unfold firstPiece at h
    split at h <;> cases h

theorem firstPiece_bad {l : List Char} (h : ∃ c ∈ l, ¬ isHexDigit c) :
    ∃ c ∈ firstPiece l, ¬ isHexDigit c := by
  induction l with
  | nil => obtain ⟨c, hc, _⟩ := h; cases hc
  | cons c cs ih =>
    unfold firstPiece
    by_cases hc : c = 'x'
    · rw [if_pos hc]
      exact ⟨c, List.mem_singleton.mpr rfl, fun hh => (isHexDigit_ne_marker hh).1 hc⟩
    · rw [if_neg hc]
      obtain ⟨b, hb, hbad⟩ := h
      rcases List.mem_cons.mp hb with rfl | hb
      · exact ⟨b, List.mem_cons_self _ _, hbad⟩
      · obtain ⟨b', hb', hbad'⟩ := ih ⟨b, hb, hbad⟩
        exact ⟨b', List.mem_cons_of_mem _ hb', hbad'⟩

theorem dropSign_firstPiece (l : List Char) :
    dropSign (firstPiece l) = firstPiece (dropSign l) := by
  cases l with
  | nil => rfl
  | cons c cs =>
    by_cases hs : c = '+' ∨ c = '-'
    · have hx : c ≠ 'x' := by rcases hs with rfl | rfl <;> decide
      simp only [firstPiece, dropSign, if_neg hx, if_pos hs]
    · by_cases hx : c = 'x'
      · simp only [firstPiece, dropSign, if_pos hx, if_neg hs]
      · simp only [firstPiece, dropSign, if_neg hx, if_neg hs]

/-! ## `ParseInt` -/

/-- `ParseUint` at base 16 and bit size 32, as `hextoDecimal` calls it. -/
theorem ParseUint_16_32 (s : List Char) :
    ParseUint s 16 32 =
      if s = [] then (0, some GoError.ErrSyntax)
      else ParseUint.loop 16 ((2 ^ 64 - 1) / 16 + 1) (2 ^ 32 - 1) s 0 := rfl

/-- `ParseInt` at base 16 and bit size 32, as `hextoDecimal` calls it. -/
theorem ParseInt_16_32 (c : Char) (cs : List Char) :
    ParseInt (c :: cs) 16 32 =
      if (ParseUint (dropSign (c :: cs)) 16 32).2 ≠ none ∧
          (ParseUint (dropSign (c :: cs)) 16 32).2 ≠ some GoError.ErrRange then
        (0, (ParseUint (dropSign (c :: cs)) 16 32).2)
      else if ¬ decide (c = '-') = true ∧ (ParseUint (dropSign (c :: cs)) 16 32).1 ≥ 2 ^ 31 then
        (((2 ^ 31 : Nat) : Int) - 1, some GoError.ErrRange)
      else if decide (c = '-') = true ∧ (ParseUint (dropSign (c :: cs)) 16 32).1 > 2 ^ 31 then
        (-((2 ^ 31 : Nat) : Int), some GoError.ErrRange)
      else if decide (c = '-') = true then
        (-((ParseUint (dropSign (c :: cs)) 16 32).1 : Int), none)
      else (((ParseUint (dropSign (c :: cs)) 16 32).1 : Int), none) := rfl

theorem ParseUint_bad (l : List Char) (h : l = [] ∨ ∃ c ∈ l, ¬ isHexDigit c) :
    ∃ v e, ParseUint l 16 32 = (v, some e) := by
  rw [ParseUint_16_32]
  by_cases hl : l = []
  · rw [if_pos hl]; exact ⟨_, _, rfl⟩
  · rw [if_neg hl]
    exact ParseUint_loop_bad _ _ l 0 (h.resolve_left hl)

theorem ParseUint_range_value {l : List Char} {v : Nat}
    (h : ParseUint l 16 32 = (v, some GoError.ErrRange)) : v = 2 ^ 32 - 1 := by
  rw [ParseUint_16_32] at h
  by_cases hl : l = []
  · rw [if_pos hl] at h; cases h
  · rw [if_neg hl] at h
    exact ParseUint_loop_range _ _ _ _ _ _ h

theorem ParseInt_of_ParseUint_error (c : Char) (cs : List Char) (v : Nat) (e : GoError)
    (h : ParseUint (dropSign (c :: cs)) 16 32 = (v, some e)) :
    ∃ v' e', ParseInt (c :: cs) 16 32 = (v', some e') := by
  rw [ParseInt_16_32, h]
  by_cases he : e = GoError.ErrRange
  · subst he
    have hv := ParseUint_range_value h
    subst hv
    rw [if_neg (fun hh => hh.2 rfl)]
    by_cases hn : decide (c = '-') = true
    · rw [if_neg (fun hh => hh.1 hn), if_pos ⟨hn, by decide⟩]
      exact ⟨_, _, rfl⟩
    · rw [if_pos ⟨hn, by decide⟩]
      exact ⟨_, _, rfl⟩
  · have hc : (some e ≠ none) ∧ (some e ≠ some GoError.ErrRange) :=
      ⟨(fun h0 => nomatch h0), fun h1 => he (Option.some.inj h1)⟩
    rw [if_pos hc]
    exact ⟨_, _, rfl⟩

theorem ParseInt_bad (s : List Char)
    (h : dropSign s = [] ∨ ∃ c ∈ dropSign s, ¬ isHexDigit c) :
    ∃ v e, ParseInt s 16 32 = (v, some e) := by
  cases s with
  | nil => exact ⟨_, _, rfl⟩
  | cons c cs =>
    obtain ⟨v, e, hv⟩ := ParseUint_bad _ h
    exact ParseInt_of_ParseUint_error c cs v e hv

theorem ParseInt_hex (ds : List Char) (hne : ds ≠ []) (hds : ∀ c ∈ ds, isHexDigit c) :
    ParseInt ds 16 32 =
      if hexValue ds < 2 ^ 31 then ((hexValue ds : Int), none)
      else (2 ^ 31 - 1, some GoError.ErrRange) := by
  cases ds with
  | nil => exact absurd rfl hne
  | cons c cs =>
    obtain ⟨_, hp, hm⟩ := isHexDigit_ne_marker (hds c (List.mem_cons_self _ _))
    have hdrop : dropSign (c :: cs) = c :: cs := by
      show (if c = '+' ∨ c = '-' then cs else c :: cs) = _
      rw [if_neg (not_or.mpr ⟨hp, hm⟩)]
    have hneg : ¬ decide (c = '-') = true := by simpa using hm
    have hU : ParseUint (c :: cs) 16 32 =
        if hexValue (c :: cs) ≤ 2 ^ 32 - 1 then (hexValue (c :: cs), none)
        else (2 ^ 32 - 1, some GoError.ErrRange) := by
      rw [ParseUint_16_32, if_neg (by simp)]
      exact ParseUint_loop_hex (c :: cs) 0 hds (by decide)
    rw [ParseInt_16_32, hdrop, hU]
    by_cases h32 : hexValue (c :: cs) ≤ 2 ^ 32 - 1
    · rw [if_pos h32, if_neg (fun hh => hh.1 rfl)]
      by_cases h31 : hexValue (c :: cs) < 2 ^ 31
      · rw [if_pos h31, if_neg (fun hh => absurd hh.2 (by show ¬ _ ≥ _; omega)),
          if_neg (fun hh => hneg hh.1), if_neg hneg]
      · rw [if_neg h31, if_pos ⟨hneg, by show _ ≥ _; omega⟩]
        rfl
    · have h31 : ¬ hexValue (c :: cs) < 2 ^ 31 := by omega
      rw [if_neg h32, if_neg h31, if_neg (fun hh => hh.2 rfl),
        if_pos ⟨hneg, by show _ ≥ _; decide⟩]
      rfl

theorem hextoDecimal_no_marker (s : String) (h : 'x' ∉ s.data) :
    hextoDecimal s = Outcome.panic := by
  unfold hextoDecimal
  rw [SplitAfter_no_marker _ h]; rfl

/-! ## `hextoDecimal` -/

/-- C6 (as amended): for every string `"0x"` followed by one or more base-16
digits, `hextoDecimal` returns the integer denoted by the digits, without error,
when that integer is below `2 ^ 31`; from `2 ^ 31` on it returns `-1` with the
range error of the 32-bit `strconv.ParseInt`. -/
theorem hextoDecimal_hex_digits (ds : List Char) (hne : ds ≠ [])
    (hds : ∀ c ∈ ds, isHexDigit c) :
    hextoDecimal ("0x" ++ String.mk ds) =
      if hexValue ds < 2 ^ 31 then Outcome.ret (hexValue ds : Int) none
      else Outcome.ret (-1) (some GoError.ErrRange) := by
  have hx : 'x' ∉ ds := fun h => (isHexDigit_ne_marker (hds _ h)).1 rfl
  have hdata : ("0x" ++ String.mk ds).data = ['0'] ++ 'x' :: ds := by
    rw [String.data_append]; rfl
  have hseg : (SplitAfter (['0'] ++ 'x' :: ds) 'x').get? 1 = some ds := by
    rw [SplitAfter_marker ['0'] ds (by decide), SplitAfter_no_marker ds hx]; rfl
  unfold hextoDecimal
  rw [hdata, hseg]
  simp only []
  rw [ParseInt_hex ds hne hds]
  by_cases h : hexValue ds < 2 ^ 31
  · rw [if_pos h, if_pos h]
  · rw [if_neg h, if_neg h]

theorem hextoDecimal_hex_digits_witness :
    hextoDecimal ("0x" ++ String.mk ['2', 'd', '0', '0']) = Outcome.ret 11520 none :=
  (hextoDecimal_hex_digits ['2', 'd', '0', '0'] (by decide) (by decide)).trans (by decide)

/-- C6 fails as stated: `"0x80000000"` is `"0x"` followed by eight base-16 digits
denoting `2147483648`, and `hextoDecimal` returns `-1` with a range error. -/
theorem hextoDecimal_rejects_large :
    (∀ c ∈ "80000000".data, isHexDigit c) ∧ hexValue "80000000".data = 2147483648 ∧
      hextoDecimal "0x80000000" = Outcome.ret (-1) (some GoError.ErrRange) := by
  decide

/-- C7 (as amended): for every string that holds the marker character `x` and
whose remainder after the first `x`, once one optional leading `+` or `-` is
removed, is empty or holds a character that is not a base-16 digit,
`hextoDecimal` returns `-1` together with an error. -/
theorem hextoDecimal_malformed (pre rest : List Char) (hpre : 'x' ∉ pre)
    (hbad : dropSign rest = [] ∨ ∃ c ∈ dropSign rest, ¬ isHexDigit c) :
    ∃ err, hextoDecimal (String.mk (pre ++ 'x' :: rest)) = Outcome.ret (-1) (some err) := by
  have hseg : dropSign (firstPiece rest) = [] ∨
      ∃ c ∈ dropSign (firstPiece rest), ¬ isHexDigit c := by
    rw [dropSign_firstPiece]
    rcases hbad with h | h
    · left; rw [h]; rfl
    · right; exact firstPiece_bad h
  obtain ⟨v, e, hve⟩ := ParseInt_bad _ hseg
  refine ⟨e, ?_⟩
  unfold hextoDecimal
  rw [SplitAfter_second pre rest hpre]
  simp only [hve]

theorem hextoDecimal_malformed_witness :
    ∃ err, hextoDecimal (String.mk (['0'] ++ 'x' :: ['1', 'g'])) = Outcome.ret (-1) (some err) :=
  hextoDecimal_malformed ['0'] ['1', 'g'] (by decide) (Or.inr ⟨'g', by decide, by decide⟩)

/-- C7 fails as stated: the remainder of `"0x-1f"` after the marker is `-1f`,
which is not made only of base-16 digits, and `hextoDecimal` returns `-31`
without error. -/
theorem hextoDecimal_accepts_sign :
    (¬ ∀ c ∈ "-1f".data, isHexDigit c) ∧ hextoDecimal "0x-1f" = Outcome.ret (-31) none := by
  decide

/-! ## Integer division and ranges -/

theorem quoInt64_of_nonneg {a : Int} (h : 0 ≤ a) : quoInt64 a blocksPerCall = a / 1920 :=
  Int.tdiv_eq_ediv h (by decide)

theorem quoInt64_of_nonpos {a : Int} (h : a ≤ 0) : quoInt64 a blocksPerCall ≤ 0 := by
  have h1 : quoInt64 a blocksPerCall = -((-a) / 1920) := by
    unfold quoInt64
    rw [← Int.tdiv_eq_ediv (by omega) (by decide), Int.neg_tdiv, Int.neg_neg]; rfl
  rw [h1]; omega

/-- The planned window count as omega-friendly facts: it is `⌊d / 1920⌋` for a
non-negative wrapped difference `d` and not positive otherwise. -/
theorem windowCount_facts (start tip : Int) :
    (0 ≤ wrap64 (tip - start) → windowCount start tip = wrap64 (tip - start) / 1920) ∧
    (wrap64 (tip - start) ≤ 0 → windowCount start tip ≤ 0) :=
  ⟨quoInt64_of_nonneg, quoInt64_of_nonpos⟩

theorem ParseInt_range {s : List Char} {x : Int} (h : ParseInt s 16 32 = (x, none)) :
    -2 ^ 31 ≤ x ∧ x < 2 ^ 31 := by
  cases s with
  | nil => cases h
  | cons c cs =>
    rw [ParseInt_16_32] at h
    split at h
    · rename_i hne
      exact absurd (congrArg Prod.snd h) hne.1
    · split at h
      · cases h
      · split at h
        · cases h
        · rename_i h1 h2
          split at h
          · rename_i h3
            cases h
            have hle : (ParseUint (dropSign (c :: cs)) 16 32).1 ≤ 2 ^ 31 := by
              by_contra hc
              exact h2 ⟨h3, by show _ > _; omega⟩
            omega
          · rename_i h3
            cases h
            have hlt : (ParseUint (dropSign (c :: cs)) 16 32).1 < 2 ^ 31 := by
              by_contra hc
              exact h1 ⟨h3, by show _ ≥ _; omega⟩
            omega

theorem hextoDecimal_range {s : String} {x : Int} (h : hextoDecimal s = Outcome.ret x none) :
    -2 ^ 31 ≤ x ∧ x < 2 ^ 31 := by
  unfold hextoDecimal at h
  split at h
  · cases h
  · split at h
    · cases h
    · rename_i hp
      cases h
      exact ParseInt_range hp

theorem GetLatestBlockNumber_range {w : World} {k : Nat} {tip : Int}
    (h : GetLatestBlockNumber w k = Outcome.ret tip none) : -2 ^ 31 ≤ tip ∧ tip < 2 ^ 31 := by
  unfold GetLatestBlockNumber at h
  split at h
  · cases h
  · split at h
    · cases h
    · rename_i hd
      cases h
      exact hextoDecimal_range hd
    · cases h
    · cases h
    · cases h

/-- What `GetStartingBlockNumber` returns when its oracle read succeeds. -/
theorem GetStartingBlockNumber_eq {w : World} {k : Nat} {days tip : Int}
    (h : GetLatestBlockNumber w k = Outcome.ret tip none) :
    GetStartingBlockNumber w k days =
      Outcome.ret (wrap64 (tip - wrap64 (blocksPerDay * days))) none := by
  unfold GetStartingBlockNumber
  rw [h]

theorem GetStartingBlockNumber_range {w : World} {k : Nat} {days start : Int}
    (h : GetStartingBlockNumber w k days = Outcome.ret start none) :
    -2 ^ 63 ≤ start ∧ start < 2 ^ 63 := by
  unfold GetStartingBlockNumber at h
  split at h
  · cases h
  · cases h
    exact wrap64_range _
  · cases h
  · cases h
  · cases h

/-! ## The window loop -/

theorem appendEach_eq (full l : List TransactionBlockEtherScan) :
    appendEach full l = full ++ l := by
  induction l generalizing full with
  | nil => simp [appendEach]
  | cons t ts ih => rw [appendEach, ih, List.append_assoc]; rfl

theorem payload_decoded (result : Option (List TransactionBlockEtherScan)) :
    (FetchReply.decoded result).payload = result.getD [] := by
  cases result <;> rfl

/-- One iteration whose GET is decoded. -/
theorem loop_step_decoded (w : World) (address : String) (start limit : Int) (fuel : Nat)
    (st : LoopState) (result : Option (List TransactionBlockEtherScan))
    (hlt : st.counter < limit)
    (hr : w.txlist st.calls.length (etherScanUrl (windowRequest address start st.counter)) =
      FetchReply.decoded result) :
    GetTransactions.loop w address start limit (fuel + 1) st =
      GetTransactions.loop w address start limit fuel
        { counter := wrap64 (st.counter + 1)
          FullListOfTransactions :=
            st.FullListOfTransactions ++ result.getD st.transactionlistResult
          transactionlistResult := []
          calls := st.calls ++ [windowRequest address start st.counter] } := by
  rw [GetTransactions.loop]
  simp only [if_pos hlt, hr, appendEach_eq]

/-- The loop leaves as soon as the counter has reached the limit. -/
theorem loop_done (w : World) (address : String) (start limit : Int) (fuel : Nat)
    (st : LoopState) (hge : ¬ st.counter < limit) :
    GetTransactions.loop w address start limit fuel st =
      { outcome := Outcome.ret st.FullListOfTransactions none, calls := st.calls } := by
  unfold GetTransactions.loop
  simp only [if_neg hge]

/-- Running `n` successful iterations. -/
theorem loop_run (w : World) (address : String) (start limit : Int) (hlim : limit < 2 ^ 63)
    (n : Nat) : ∀ (i fuel : Nat) (st : LoopState),
    st.counter = (i : Int) → st.calls.length = i → st.transactionlistResult = [] →
    (∀ j : Nat, i ≤ j → j < i + n → (j : Int) < limit ∧
      (w.txlist j (etherScanUrl (windowRequest address start (j : Int)))).succeeded) →
    GetTransactions.loop w address start limit (fuel + n) st =
      GetTransactions.loop w address start limit fuel (stateAfter w address start st i n) := by
  induction n with
  | zero =>
    intro i fuel st hc _ ht _
    have : stateAfter w address start st i 0 = st := by
      cases st
      simp only at hc ht
      subst hc ht
      simp [stateAfter]
    rw [this]; rfl
  | succ n ih =>
    intro i fuel st hc hl ht hok
    obtain ⟨hilt, result, hres⟩ := hok i (Nat.le_refl _) (by omega)
    have hstep := loop_step_decoded w address start limit (fuel + n) st result
      (by rw [hc]; exact hilt) (by rw [hl, hc]; exact hres)
    rw [show fuel + (n + 1) = fuel + n + 1 from rfl, hstep]
    have hw : wrap64 (st.counter + 1) = ((i + 1 : Nat) : Int) := by
      rw [hc, wrap64_eq_self (by omega) (by omega)]; push_cast; rfl
    rw [ih (i + 1) fuel _ hw (by simp [hl]) rfl
      (fun j h1 h2 => hok j (by omega) (by omega))]
    congr 1
    simp only [stateAfter, List.range'_succ, List.map_cons, List.flatten_cons, hres,
      payload_decoded, ht, hc, List.append_assoc, List.singleton_append]
    congr 1
    push_cast; omega

/-- One iteration whose payload fails to decode: `return nil, err2`. -/
theorem loop_step_unmarshalError (w : World) (address : String) (start limit : Int)
    (fuel : Nat) (st : LoopState) (err : GoError) (hlt : st.counter < limit)
    (hr : w.txlist st.calls.length (etherScanUrl (windowRequest address start st.counter)) =
      FetchReply.unmarshalError err) :
    GetTransactions.loop w address start limit (fuel + 1) st =
      { outcome := Outcome.ret [] (some err)
        calls := st.calls ++ [windowRequest address start st.counter] } := by
  rw [GetTransactions.loop]
  simp only [if_pos hlt, hr]

/-- One iteration whose GET or body read fails: `log.Fatal`. -/
theorem loop_step_fatal (w : World) (address : String) (start limit : Int)
    (fuel : Nat) (st : LoopState) (err : GoError) (hlt : st.counter < limit)
    (hr : w.txlist st.calls.length (etherScanUrl (windowRequest address start st.counter)) =
        FetchReply.getError err ∨
      w.txlist st.calls.length (etherScanUrl (windowRequest address start st.counter)) =
        FetchReply.readError err) :
    GetTransactions.loop w address start limit (fuel + 1) st =
      { outcome := Outcome.exit
        calls := st.calls ++ [windowRequest address start st.counter] } := by
  rw [GetTransactions.loop]
  rcases hr with hr | hr <;> simp only [if_pos hlt, hr]

theorem stateAfter_initial_length (w : World) (address : String) (start : Int) (i : Nat) :
    (stateAfter w address start initialState 0 i).calls.length = i := by
  simp only [stateAfter, initialState, List.nil_append, List.length_map, List.length_range']

theorem stateAfter_initial_counter (w : World) (address : String) (start : Int) (i : Nat) :
    (stateAfter w address start initialState 0 i).counter = (i : Int) := by
  simp [stateAfter]

/-! ## `GetTransactions` -/

theorem windowCount_lt (start tip : Int) : windowCount start tip < 2 ^ 63 := by
  obtain ⟨h1, h2⟩ := windowCount_facts start tip
  have := wrap64_range (tip - start)
  omega

theorem GetTransactions_eq_loop {w : World} {address : String} {days start tip : Int}
    (hs : GetStartingBlockNumber w 0 days = Outcome.ret start none)
    (ht : GetLatestBlockNumber w 1 = Outcome.ret tip none) :
    GetTransactions w address days =
      GetTransactions.loop w address start (windowCount start tip)
        (windowCount start tip).toNat initialState := by
  unfold GetTransactions
  rw [hs]
  simp only []
  rw [ht]
  rfl

/-- With both oracle reads answered, `GetTransactions` first runs through every
window whose GET is decoded; `i` such windows bring the loop to
`stateAfter … 0 i` with `windowCount - i` iterations of fuel left. -/
theorem GetTransactions_after {w : World} {address : String} {days start tip : Int}
    (hs : GetStartingBlockNumber w 0 days = Outcome.ret start none)
    (ht : GetLatestBlockNumber w 1 = Outcome.ret tip none) (i : Nat)
    (hi : i ≤ (windowCount start tip).toNat)
    (hok : ∀ j : Nat, j < i →
      (w.txlist j (etherScanUrl (windowRequest address start (j : Int)))).succeeded) :
    GetTransactions w address days =
      GetTransactions.loop w address start (windowCount start tip)
        ((windowCount start tip).toNat - i) (stateAfter w address start initialState 0 i) := by
  rw [GetTransactions_eq_loop hs ht]
  have h := loop_run w address start (windowCount start tip) (windowCount_lt start tip) i 0
    ((windowCount start tip).toNat - i) initialState rfl rfl rfl
    (fun j _ hj => ⟨by omega, hok j (by omega)⟩)
  rw [← h]
  congr 1
  omega

/-- The run of `GetTransactions` when both oracle reads are answered and the GET
of every planned window is decoded. -/
theorem GetTransactions_success {w : World} {address : String} {days start tip : Int}
    (hs : GetStartingBlockNumber w 0 days = Outcome.ret start none)
    (ht : GetLatestBlockNumber w 1 = Outcome.ret tip none)
    (hok : ∀ j : Nat, (j : Int) < windowCount start tip →
      (w.txlist j (etherScanUrl (windowRequest address start (j : Int)))).succeeded) :
    GetTransactions w address days =
      { outcome := Outcome.ret
          ((List.range (windowCount start tip).toNat).map fun j =>
            (w.txlist j (etherScanUrl (windowRequest address start (j : Int)))).payload).flatten
          none
        calls := (List.range (windowCount start tip).toNat).map fun j : Nat =>
          windowRequest address start (j : Int) } := by
  rw [GetTransactions_after hs ht (windowCount start tip).toNat (Nat.le_refl _)
    (fun j hj => hok j (by omega))]
  rw [loop_done _ _ _ _ _ _ (by show ¬ _ < _; simp only [stateAfter]; omega)]
  simp only [stateAfter, initialState, List.nil_append, List.range_eq_range']

/-- The run of `GetTransactions` when window `i` is the first whose payload fails
to decode. -/
theorem GetTransactions_decode_failure {w : World} {address : String} {days start tip : Int}
    (hs : GetStartingBlockNumber w 0 days = Outcome.ret start none)
    (ht : GetLatestBlockNumber w 1 = Outcome.ret tip none) (i : Nat) (err : GoError)
    (hi : (i : Int) < windowCount start tip)
    (hok : ∀ j : Nat, j < i →
      (w.txlist j (etherScanUrl (windowRequest address start (j : Int)))).succeeded)
    (hfail : w.txlist i (etherScanUrl (windowRequest address start (i : Int))) =
      FetchReply.unmarshalError err) :
    GetTransactions w address days =
      { outcome := Outcome.ret [] (some err)
        calls := (List.range (i + 1)).map fun j : Nat =>
          windowRequest address start (j : Int) } := by
  rw [GetTransactions_after hs ht i (by omega) hok]
  obtain ⟨fuel, hfuel⟩ : ∃ fuel, (windowCount start tip).toNat - i = fuel + 1 :=
    ⟨(windowCount start tip).toNat - i - 1, by omega⟩
  rw [hfuel, loop_step_unmarshalError _ _ _ _ _ _ err
    (by rw [stateAfter_initial_counter]; exact hi)
    (by rw [stateAfter_initial_length, stateAfter_initial_counter]; exact hfail)]
  simp [stateAfter, initialState, List.range_succ, List.range_eq_range']

/-! ## Totality: the fuel is never exhausted -/

theorem hextoDecimal_ne_outOfFuel (s : String) : hextoDecimal s ≠ Outcome.outOfFuel := by
  unfold hextoDecimal
  split
  · exact fun h => nomatch h
  · split <;> exact fun h => nomatch h

theorem GetLatestBlockNumber_ne_outOfFuel (w : World) (k : Nat) :
    GetLatestBlockNumber w k ≠ Outcome.outOfFuel := by
  unfold GetLatestBlockNumber
  split
  · exact fun h => nomatch h
  · split
    · exact fun h => nomatch h
    · exact fun h => nomatch h
    · exact fun h => nomatch h
    · exact fun h => nomatch h
    · rename_i h
      exact absurd h (hextoDecimal_ne_outOfFuel _)

theorem GetStartingBlockNumber_ne_outOfFuel (w : World) (k : Nat) (days : Int) :
    GetStartingBlockNumber w k days ≠ Outcome.outOfFuel := by
  unfold GetStartingBlockNumber
  split
  · exact fun h => nomatch h
  · exact fun h => nomatch h
  · exact fun h => nomatch h
  · exact fun h => nomatch h
  · rename_i h
    exact absurd h (GetLatestBlockNumber_ne_outOfFuel _ _)

theorem loop_ne_outOfFuel (w : World) (address : String) (start limit : Int)
    (hlim : limit < 2 ^ 63) (fuel : Nat) : ∀ st : LoopState,
    -2 ^ 63 ≤ st.counter → (limit - st.counter).toNat ≤ fuel →
    (GetTransactions.loop w address start limit fuel st).outcome ≠ Outcome.outOfFuel := by
  induction fuel with
  | zero =>
    intro st _ hf
    rw [loop_done _ _ _ _ _ _ (by omega)]
    exact fun h => nomatch h
  | succ fuel ih =>
    intro st hc hf
    by_cases hlt : st.counter < limit
    · cases hreply :
          w.txlist st.calls.length (etherScanUrl (windowRequest address start st.counter)) with
      | getError err =>
        rw [loop_step_fatal _ _ _ _ _ _ err hlt (Or.inl hreply)]
        exact fun h => nomatch h
      | readError err =>
        rw [loop_step_fatal _ _ _ _ _ _ err hlt (Or.inr hreply)]
        exact fun h => nomatch h
      | unmarshalError err =>
        rw [loop_step_unmarshalError _ _ _ _ _ _ err hlt hreply]
        exact fun h => nomatch h
      | decoded result =>
        rw [loop_step_decoded _ _ _ _ _ _ result hlt hreply]
        have hw : wrap64 (st.counter + 1) = st.counter + 1 :=
          wrap64_eq_self (by omega) (by omega)
        apply ih
        · show -2 ^ 63 ≤ wrap64 (st.counter + 1)
          rw [hw]; omega
        · show (limit - wrap64 (st.counter + 1)).toNat ≤ fuel
          rw [hw]; omega
    · rw [loop_done _ _ _ _ _ _ hlt]
      exact fun h => nomatch h

/-- The loop of `GetTransactions` never runs out of the fuel it is given: every
call ends by returning, by a panic of `hextoDecimal`, or by `log.Fatal`. -/
theorem GetTransactions_fuel_suffices (w : World) (address : String) (days : Int) :
    (GetTransactions w address days).outcome ≠ Outcome.outOfFuel := by
  unfold GetTransactions
  split
  · exact fun h => nomatch h
  · exact fun h => nomatch h
  · exact fun h => nomatch h
  · rename_i h
    exact absurd h (GetStartingBlockNumber_ne_outOfFuel _ _ _)
  · split
    · exact fun h => nomatch h
    · exact fun h => nomatch h
    · exact fun h => nomatch h
    · rename_i h
      exact absurd h (GetLatestBlockNumber_ne_outOfFuel _ _)
    · rename_i startingblock _ _ currBlockNumber _
      exact loop_ne_outOfFuel w address startingblock (windowCount startingblock currBlockNumber)
        (windowCount_lt startingblock currBlockNumber) _ initialState
        (by show -2 ^ 63 ≤ (0 : Int); omega)
        (by
          show (windowCount startingblock currBlockNumber - (0 : Int)).toNat ≤
            (windowCount startingblock currBlockNumber).toNat
          omega)

/-! ## Windows in exact arithmetic -/

theorem windowCount_of_no_overflow {start tip : Int}
    (hno : -2 ^ 63 ≤ tip - start ∧ tip - start < 2 ^ 63) :
    (windowCount start tip).toNat = ((tip - start) / 1920).toNat ∧
      ∀ j : Nat, (j : Int) < windowCount start tip ↔ (j : Int) < (tip - start) / 1920 := by
  obtain ⟨h1, h2⟩ := windowCount_facts start tip
  rw [wrap64_eq_self hno.1 hno.2] at h1 h2
  constructor
  · omega
  · intro j; omega

theorem windowRequest_exact (address : String) {start tip : Int} (j : Nat)
    (hstart : -2 ^ 63 ≤ start) (htip : tip < 2 ^ 63) (hno : tip - start < 2 ^ 63)
    (hj : (j : Int) < (tip - start) / 1920) :
    windowRequest address start (j : Int) =
      { address := address, startblock := start + 1920 * j,
        endblock := start + 1920 * (j + 1) } := by
  have e1 : wrap64 ((j : Int) + 1) = j + 1 := wrap64_eq_self (by omega) (by omega)
  have e2 : wrap64 (1920 * ((j : Int) + 1)) = 1920 * (j + 1) :=
    wrap64_eq_self (by omega) (by omega)
  have e3 : wrap64 (1920 * (j : Int)) = 1920 * j := wrap64_eq_self (by omega) (by omega)
  have e4 : wrap64 (start + 1920 * (j : Int)) = start + 1920 * j :=
    wrap64_eq_self (by omega) (by omega)
  have e5 : wrap64 (start + 1920 * ((j : Int) + 1)) = start + 1920 * (j + 1) :=
    wrap64_eq_self (by omega) (by omega)
  simp only [windowRequest, blocksPerCall, e1, e2, e3, e4, e5]

/-! ## Claims -/

/-- C1 (as amended): when both oracle reads are answered, `tip - start` fits in a
signed 64-bit integer and the GET of every window is decoded, `GetTransactions`
issues exactly `max 0 ⌊(tip - start) / 1920⌋` GETs, the `i`-th one asking for
`startblock = start + 1920 * i` and `endblock = start + 1920 * (i + 1)`, in
ascending order of `i`. -/
theorem GetTransactions_window_calls (w : World) (address : String) (days start tip : Int)
    (hs : GetStartingBlockNumber w 0 days = Outcome.ret start none)
    (ht : GetLatestBlockNumber w 1 = Outcome.ret tip none)
    (hno : -2 ^ 63 ≤ tip - start ∧ tip - start < 2 ^ 63)
    (hok : ∀ i : Nat, (i : Int) < (tip - start) / 1920 →
      (w.txlist i (etherScanUrl { address := address, startblock := start + 1920 * i,
                                  endblock := start + 1920 * (i + 1) })).succeeded) :
    (GetTransactions w address days).calls =
      (List.range ((tip - start) / 1920).toNat).map fun i : Nat =>
        ({ address := address, startblock := start + 1920 * i,
           endblock := start + 1920 * (i + 1) } : Request) := by
  obtain ⟨hn, hiff⟩ := windowCount_of_no_overflow hno
  have hstart := (GetStartingBlockNumber_range hs).1
  have htip : tip < 2 ^ 63 := by have := (GetLatestBlockNumber_range ht).2; omega
  rw [GetTransactions_success hs ht (fun j hj => by
    rw [windowRequest_exact address j hstart htip hno.2 ((hiff j).mp hj)]
    exact hok j ((hiff j).mp hj))]
  simp only [hn]
  apply List.map_congr_left
  intro j hj
  exact windowRequest_exact address j hstart htip hno.2 (by have := List.mem_range.mp hj; omega)

theorem GetTransactions_window_calls_witness :
    GetStartingBlockNumber scenarioWorld 0 1 = Outcome.ret 5760 none ∧
    GetLatestBlockNumber scenarioWorld 1 = Outcome.ret 11520 none ∧
    (GetTransactions scenarioWorld "0xA" 1).calls =
      [{ address := "0xA", startblock := 5760, endblock := 7680 },
       { address := "0xA", startblock := 7680, endblock := 9600 },
       { address := "0xA", startblock := 9600, endblock := 11520 }] :=
  ⟨by decide, by decide,
    (GetTransactions_window_calls scenarioWorld "0xA" 1 5760 11520 (by decide) (by decide)
      (by decide)
      (fun i _ => by unfold scenarioWorld; simp only []; split_ifs <;> exact ⟨_, rfl⟩)).trans
      (by decide)⟩

/-- C1 fails as stated, in two ways. With tip 11520 on both reads and `days = 1`
(start 5760, three windows planned), a second GET whose payload does not decode
ends the call after two GETs. With tip 11520 and `days = 1601279867509510` every
GET is decoded and `⌊(tip - start) / 1920⌋` is `4803839602528530`, yet no GET is
issued, because `tip - start` exceeds the `int64` range. -/
theorem GetTransactions_fewer_calls :
    ((GetTransactions (scenarioWith 1 (FetchReply.unmarshalError (GoError.Json "EOF")))
        "0xA" 1).calls =
      [{ address := "0xA", startblock := 5760, endblock := 7680 },
       { address := "0xA", startblock := 7680, endblock := 9600 }]) ∧
    (GetStartingBlockNumber scenarioWorld 0 1601279867509510 =
        Outcome.ret (-9223372036854766080) none ∧
      (11520 - (-9223372036854766080 : Int)) / 1920 = 4803839602528530 ∧
      (GetTransactions scenarioWorld "0xA" 1601279867509510).calls = []) := by
  decide

/-- C2: when both oracle reads are answered and the GET of every planned window
is decoded, `GetTransactions` returns, without error, exactly the concatenation
of the payloads of window `0`, window `1`, …, window `windowCount - 1`, in that
order. -/
theorem GetTransactions_concatenates (w : World) (address : String) (days start tip : Int)
    (hs : GetStartingBlockNumber w 0 days = Outcome.ret start none)
    (ht : GetLatestBlockNumber w 1 = Outcome.ret tip none)
    (hok : ∀ i : Nat, (i : Int) < windowCount start tip →
      (w.txlist i (etherScanUrl (windowRequest address start (i : Int)))).succeeded) :
    (GetTransactions w address days).outcome =
      Outcome.ret
        ((List.range (windowCount start tip).toNat).map fun i =>
          (w.txlist i (etherScanUrl (windowRequest address start (i : Int)))).payload).flatten
        none := by
  rw [GetTransactions_success hs ht hok]

theorem GetTransactions_concatenates_witness :
    (GetTransactions scenarioWorld "0xA" 1).outcome =
      Outcome.ret [txAt "5760", txAt "6000", txAt "7680"] none :=
  (GetTransactions_concatenates scenarioWorld "0xA" 1 5760 11520 (by decide) (by decide)
    (fun i _ => by unfold scenarioWorld; simp only []; split_ifs <;> exact ⟨_, rfl⟩)).trans
    (by decide)

/-- C4 (as amended): for every address, when both oracle reads are answered, the
tip read in `GetTransactions` is not greater than the start returned by
`GetStartingBlockNumber`, and `tip - start` is not below the `int64` range (as
is the case for every tip that is not negative), no GET is issued and the result
is the empty list without error. -/
theorem GetTransactions_empty_window (w : World) (address : String) (days start tip : Int)
    (hs : GetStartingBlockNumber w 0 days = Outcome.ret start none)
    (ht : GetLatestBlockNumber w 1 = Outcome.ret tip none)
    (hle : tip ≤ start) (hno : -2 ^ 63 ≤ tip - start) :
    GetTransactions w address days = { outcome := Outcome.ret [] none, calls := [] } := by
  obtain ⟨_, h2⟩ := windowCount_facts start tip
  rw [wrap64_eq_self hno (by omega)] at h2
  have hz : windowCount start tip ≤ 0 := h2 (by omega)
  rw [GetTransactions_success hs ht (fun j hj => by omega)]
  have hn : (windowCount start tip).toNat = 0 := by omega
  rw [hn]; rfl

theorem GetTransactions_empty_window_witness :
    GetTransactions scenarioWorld "0xA" 0 = { outcome := Outcome.ret [] none, calls := [] } :=
  GetTransactions_empty_window scenarioWorld "0xA" 0 11520 11520 (by decide) (by decide)
    (by decide) (by decide)

/-- The requests recorded by the loop only grow. -/
theorem loop_calls_length (w : World) (address : String) (start limit : Int) (fuel : Nat) :
    ∀ st : LoopState,
      st.calls.length ≤ (GetTransactions.loop w address start limit fuel st).calls.length := by
  induction fuel with
  | zero =>
    intro st
    unfold GetTransactions.loop
    split <;> exact Nat.le_refl _
  | succ fuel ih =>
    intro st
    by_cases hlt : st.counter < limit
    · cases hreply :
          w.txlist st.calls.length (etherScanUrl (windowRequest address start st.counter)) with
      | getError err =>
        rw [loop_step_fatal _ _ _ _ _ _ err hlt (Or.inl hreply)]
        simp only [List.length_append, List.length_singleton]; omega
      | readError err =>
        rw [loop_step_fatal _ _ _ _ _ _ err hlt (Or.inr hreply)]
        simp only [List.length_append, List.length_singleton]; omega
      | unmarshalError err =>
        rw [loop_step_unmarshalError _ _ _ _ _ _ err hlt hreply]
        simp only [List.length_append, List.length_singleton]; omega
      | decoded result =>
        rw [loop_step_decoded _ _ _ _ _ _ result hlt hreply]
        refine Nat.le_trans ?_ (ih _)
        simp only [List.length_append, List.length_singleton]; omega
    · rw [loop_done _ _ _ _ _ _ hlt]

/-- A loop entered with the counter below the limit and fuel left sends a GET. -/
theorem loop_calls_ne_nil (w : World) (address : String) (start limit : Int) (fuel : Nat)
    (st : LoopState) (hlt : st.counter < limit) :
    (GetTransactions.loop w address start limit (fuel + 1) st).calls ≠ [] := by
  intro hnil
  have hlen : 1 ≤ (GetTransactions.loop w address start limit (fuel + 1) st).calls.length := by
    cases hreply :
        w.txlist st.calls.length (etherScanUrl (windowRequest address start st.counter)) with
    | getError err =>
      rw [loop_step_fatal _ _ _ _ _ _ err hlt (Or.inl hreply)]
      simp only [List.length_append, List.length_singleton]; omega
    | readError err =>
      rw [loop_step_fatal _ _ _ _ _ _ err hlt (Or.inr hreply)]
      simp only [List.length_append, List.length_singleton]; omega
    | unmarshalError err =>
      rw [loop_step_unmarshalError _ _ _ _ _ _ err hlt hreply]
      simp only [List.length_append, List.length_singleton]; omega
    | decoded result =>
      rw [loop_step_decoded _ _ _ _ _ _ result hlt hreply]
      refine Nat.le_trans ?_ (loop_calls_length _ _ _ _ _ _)
      simp only [List.length_append, List.length_singleton]; omega
  rw [hnil] at hlen
  exact absurd hlen (by decide)

/-- C4 fails as stated: with oracle reads `0x2d00` and `0x-80000000` and
`days = 46437116157775783` both reads succeed, the start is
`9223372036854775680`, the tip is `-2147483648`, so `tip ≤ start`; yet
`tip - start` wraps around to a positive `int64`, the loop is entered, and a GET
is issued whatever the server answers. When the first payload does not decode,
the call returns that error after one GET. -/
theorem GetTransactions_negative_tip_fetches :
    GetStartingBlockNumber (negativeTipWorld (FetchReply.unmarshalError (GoError.Json "EOF")))
        0 46437116157775783 = Outcome.ret 9223372036854775680 none ∧
    GetLatestBlockNumber (negativeTipWorld (FetchReply.unmarshalError (GoError.Json "EOF"))) 1 =
        Outcome.ret (-2147483648) none ∧
    (-2147483648 : Int) ≤ 9223372036854775680 ∧
    GetTransactions (negativeTipWorld (FetchReply.unmarshalError (GoError.Json "EOF")))
        "0xA" 46437116157775783 =
      { outcome := Outcome.ret [] (some (GoError.Json "EOF"))
        calls := [{ address := "0xA", startblock := 9223372036854775680,
                    endblock := -9223372036854774016 }] } ∧
    ∀ reply : FetchReply,
      (GetTransactions (negativeTipWorld reply) "0xA" 46437116157775783).calls ≠ [] := by
  refine ⟨by decide, by decide, by decide, by decide, ?_⟩
  intro reply
  have hs : GetStartingBlockNumber (negativeTipWorld reply) 0 46437116157775783 =
      Outcome.ret 9223372036854775680 none := by rfl
  have ht : GetLatestBlockNumber (negativeTipWorld reply) 1 =
      Outcome.ret (-2147483648) none := by rfl
  rw [GetTransactions_eq_loop hs ht]
  have hc : windowCount 9223372036854775680 (-2147483648) = 4803839601410048 := by decide
  rw [hc]
  exact loop_calls_ne_nil _ _ _ _ 4803839601410047 initialState (by decide)

/-- C3 fails on the code: with tip 11520 on both reads and `days = 1`, window 0 is
fetched and the GET of window 1 fails in transport. `GetTransactions` does not
return an error: `log.Fatal(err)` ends the process before `return nil, err` is
reached. No GET for window 2 is issued. -/
theorem GetTransactions_transport_failure_exits :
    GetTransactions (scenarioWith 1 (FetchReply.getError (GoError.Net "timeout"))) "0xA" 1 =
      { outcome := Outcome.exit
        calls := [{ address := "0xA", startblock := 5760, endblock := 7680 },
                  { address := "0xA", startblock := 7680, endblock := 9600 }] } := by
  decide

theorem wrap64_eq_sub {x : Int} (h1 : 2 ^ 63 ≤ x) (h2 : x < 2 ^ 64) :
    wrap64 x = x - 2 ^ 64 := by
  unfold wrap64; omega

/-- The ordering fact behind C5, on the raw window bounds: a block number not
above the end of window `i` is not above a block number within a later window
`j`, also when the 64-bit window bounds wrap around. -/
theorem window_order_raw (start : Int) (hstart : -2 ^ 63 ≤ start ∧ start < 2 ^ 63)
    (i j : Nat) (hij : i < j) (hb : 1920 * ((j : Int) + 1) < 2 ^ 63) (x y : Nat)
    (hx : (x : Int) ≤ wrap64 (start + wrap64 (1920 * wrap64 ((i : Int) + 1))))
    (hy1 : wrap64 (start + wrap64 (1920 * (j : Int))) ≤ (y : Int))
    (hy2 : (y : Int) ≤ wrap64 (start + wrap64 (1920 * wrap64 ((j : Int) + 1)))) :
    x ≤ y := by
  revert hx hy1 hy2
  have b1 : -2 ^ 63 ≤ (j : Int) + 1 := by omega
  have b2 : (j : Int) + 1 < 2 ^ 63 := by omega
  have b3 : -2 ^ 63 ≤ 1920 * ((j : Int) + 1) := by omega
  have b4 : -2 ^ 63 ≤ 1920 * (j : Int) := by omega
  have b5 : 1920 * (j : Int) < 2 ^ 63 := by omega
  have b6 : -2 ^ 63 ≤ (i : Int) + 1 := by omega
  have b7 : (i : Int) + 1 < 2 ^ 63 := by omega
  have b8 : -2 ^ 63 ≤ 1920 * ((i : Int) + 1) := by omega
  have b9 : 1920 * ((i : Int) + 1) < 2 ^ 63 := by omega
  have c1 : -2 ^ 63 ≤ start + 1920 * ((i : Int) + 1) := by omega
  have c2 : -2 ^ 63 ≤ start + 1920 * (j : Int) := by omega
  have c3 : start + 1920 * ((j : Int) + 1) < 2 ^ 64 := by omega
  have c4 : start + 1920 * ((i : Int) + 1) ≤ start + 1920 * (j : Int) := by omega
  have c5 : start + 1920 * (j : Int) ≤ start + 1920 * ((j : Int) + 1) := by omega
  rw [wrap64_eq_self b1 b2, wrap64_eq_self b3 hb, wrap64_eq_self b4 b5,
    wrap64_eq_self b6 b7, wrap64_eq_self b8 b9]
  by_cases hbig : start + 1920 * ((j : Int) + 1) < 2 ^ 63
  · rw [wrap64_eq_self c1 (by omega), wrap64_eq_self c2 (by omega)]
    intro hx hy1 _
    omega
  · rw [wrap64_eq_sub (by omega) c3]
    intro _ _ hy2
    omega

theorem window_order (address : String) (start tip : Int)
    (hstart : -2 ^ 63 ≤ start ∧ start < 2 ^ 63) (i j : Nat) (hij : i < j)
    (hj : (j : Int) < windowCount start tip) (x y : Nat)
    (hx : (x : Int) ≤ (windowRequest address start (i : Int)).endblock)
    (hy1 : (windowRequest address start (j : Int)).startblock ≤ (y : Int))
    (hy2 : (y : Int) ≤ (windowRequest address start (j : Int)).endblock) : x ≤ y := by
  have hb : 1920 * ((j : Int) + 1) < 2 ^ 63 := by
    obtain ⟨h1, h2⟩ := windowCount_facts start tip
    have hr := wrap64_range (tip - start)
    clear hx hy1 hy2
    omega
  exact window_order_raw start hstart i j hij hb x y hx hy1 hy2

/-- C5: when both oracle reads are answered, the GET of every planned window is
decoded, and each window `(s, e)` yields only transactions whose block number
lies in `[s, e]`, in ascending order of block number, then `GetTransactions`
returns without error a list in ascending (non-decreasing) order of block
number. `blockNumber` is any reading of a transaction's block number as a
non-negative integer. -/
theorem GetTransactions_ascending (blockNumber : TransactionBlockEtherScan → Nat)
    (w : World) (address : String) (days start tip : Int)
    (hs : GetStartingBlockNumber w 0 days = Outcome.ret start none)
    (ht : GetLatestBlockNumber w 1 = Outcome.ret tip none)
    (hok : ∀ i : Nat, (i : Int) < windowCount start tip →
      (w.txlist i (etherScanUrl (windowRequest address start (i : Int)))).succeeded)
    (hin : ∀ i : Nat, (i : Int) < windowCount start tip →
      ∀ t ∈ (w.txlist i (etherScanUrl (windowRequest address start (i : Int)))).payload,
        (windowRequest address start (i : Int)).startblock ≤ (blockNumber t : Int) ∧
        (blockNumber t : Int) ≤ (windowRequest address start (i : Int)).endblock)
    (hsorted : ∀ i : Nat, (i : Int) < windowCount start tip →
      ((w.txlist i (etherScanUrl (windowRequest address start (i : Int)))).payload).Pairwise
        fun a b => blockNumber a ≤ blockNumber b) :
    ∃ txs, (GetTransactions w address days).outcome = Outcome.ret txs none ∧
      txs.Pairwise fun a b => blockNumber a ≤ blockNumber b := by
  refine ⟨_, by rw [GetTransactions_success hs ht hok], ?_⟩
  have hstart := GetStartingBlockNumber_range hs
  rw [List.pairwise_flatten]
  constructor
  · intro l hl
    obtain ⟨i, hi, rfl⟩ := List.mem_map.mp hl
    exact hsorted i (by have := List.mem_range.mp hi; omega)
  · rw [List.pairwise_map]
    refine (List.pairwise_lt_range _).imp_of_mem ?_
    intro i j hi hj hij x hx y hy
    have hi' : (i : Int) < windowCount start tip := by have := List.mem_range.mp hi; omega
    have hj' : (j : Int) < windowCount start tip := by have := List.mem_range.mp hj; omega
    exact window_order address start tip hstart i j hij hj' _ _ (hin i hi' x hx).2
      (hin j hj' y hy).1 (hin j hj' y hy).2

theorem GetTransactions_ascending_witness :
    ∃ txs, (GetTransactions scenarioWorld "0xA" 1).outcome = Outcome.ret txs none ∧
      txs.Pairwise fun a b => decimalBlockNumber a ≤ decimalBlockNumber b :=
  have hc : windowCount 5760 11520 = 3 := by decide
  GetTransactions_ascending decimalBlockNumber scenarioWorld "0xA" 1 5760 11520
    (by decide) (by decide)
    (fun i _ => by unfold scenarioWorld; simp only []; split_ifs <;> exact ⟨_, rfl⟩)
    (fun i hi => by
      have : i < 3 := by omega
      interval_cases i <;> decide)
    (fun i hi => by
      have : i < 3 := by omega
      interval_cases i <;> decide)

/-- C8 (as amended): when the oracle read is answered with `tip ≥ 0`, `days ≥ 0`
and `tip - 5760 * days` is not below the `int64` range, `GetStartingBlockNumber`
returns exactly `tip - 5760 * days`; the value is returned as it is, negative
whenever `5760 * days > tip`, without being clamped to `0`. -/
theorem GetStartingBlockNumber_exact (w : World) (k : Nat) (days tip : Int)
    (ht : GetLatestBlockNumber w k = Outcome.ret tip none)
    (h0 : 0 ≤ tip) (hd : 0 ≤ days) (hno : -2 ^ 63 ≤ tip - 5760 * days) :
    GetStartingBlockNumber w k days = Outcome.ret (tip - 5760 * days) none := by
  have hr := GetLatestBlockNumber_range ht
  rw [GetStartingBlockNumber_eq ht]
  congr 1
  unfold wrap64 blocksPerDay
  omega

theorem GetStartingBlockNumber_exact_witness :
    GetStartingBlockNumber scenarioWorld 0 1 = Outcome.ret (11520 - 5760 * 1) none :=
  GetStartingBlockNumber_exact scenarioWorld 0 1 11520 (by decide) (by decide) (by decide)
    (by decide)

/-- C8 fails as stated: with tip 11520 and `days = 3` the difference
`11520 - 5760 * 3` is negative and `GetStartingBlockNumber` returns it, `-5760`,
not `0`. -/
theorem GetStartingBlockNumber_negative :
    GetLatestBlockNumber scenarioWorld 0 = Outcome.ret 11520 none ∧
      GetStartingBlockNumber scenarioWorld 0 3 = Outcome.ret (-5760) none := by
  decide

/-- C9 (as amended): when both oracle reads are answered and the payload of
window `i` fails to decode after windows `0 … i - 1` were fetched, the error
`GetTransactions` returns is the decoder's error `err` itself, handed on
unchanged together with no transactions; nothing is added to it, in particular
no window index. -/
theorem GetTransactions_returns_decoder_error (w : World) (address : String)
    (days start tip : Int) (i : Nat) (err : GoError)
    (hs : GetStartingBlockNumber w 0 days = Outcome.ret start none)
    (ht : GetLatestBlockNumber w 1 = Outcome.ret tip none)
    (hi : (i : Int) < windowCount start tip)
    (hok : ∀ j : Nat, j < i →
      (w.txlist j (etherScanUrl (windowRequest address start (j : Int)))).succeeded)
    (hfail : w.txlist i (etherScanUrl (windowRequest address start (i : Int))) =
      FetchReply.unmarshalError err) :
    (GetTransactions w address days).outcome = Outcome.ret [] (some err) := by
  rw [GetTransactions_decode_failure hs ht i err hi hok hfail]

theorem GetTransactions_returns_decoder_error_witness :
    (GetTransactions (scenarioWith 1 (FetchReply.unmarshalError (GoError.Json "EOF")))
      "0xA" 1).outcome = Outcome.ret [] (some (GoError.Json "EOF")) :=
  GetTransactions_returns_decoder_error
    (scenarioWith 1 (FetchReply.unmarshalError (GoError.Json "EOF"))) "0xA" 1 5760 11520 1
    (GoError.Json "EOF") (by decide) (by decide) (by decide)
    (fun j hj => by
      have : j = 0 := by omega
      subst this
      exact ⟨_, rfl⟩)
    rfl

/-- C9 fails as stated: whether the second or the first of the three GETs fails
to decode, `GetTransactions` returns the very same error value, so the error
does not tell window index `1` from window index `0`; no reading of a window
index off the returned error can be right for both calls. -/
theorem GetTransactions_error_has_no_index :
    (GetTransactions (scenarioWith 1 (FetchReply.unmarshalError (GoError.Json "bad payload")))
        "0xA" 1).outcome = Outcome.ret [] (some (GoError.Json "bad payload")) ∧
    (GetTransactions (scenarioWith 0 (FetchReply.unmarshalError (GoError.Json "bad payload")))
        "0xA" 1).outcome = Outcome.ret [] (some (GoError.Json "bad payload")) ∧
    ¬ ∃ windowIndex : GoError → Nat, ∀ i : Nat, i < 3 → ∀ err : GoError,
        ∃ e, (GetTransactions (scenarioWith i (FetchReply.unmarshalError err)) "0xA" 1).outcome =
            Outcome.ret [] (some e) ∧ windowIndex e = i := by
  refine ⟨by decide, by decide, ?_⟩
  rintro ⟨windowIndex, h⟩
  obtain ⟨e1, h1, hi1⟩ := h 1 (by decide) (GoError.Json "bad payload")
  obtain ⟨e0, h0, hi0⟩ := h 0 (by decide) (GoError.Json "bad payload")
  have a1 : (GetTransactions
      (scenarioWith 1 (FetchReply.unmarshalError (GoError.Json "bad payload"))) "0xA" 1).outcome =
      Outcome.ret [] (some (GoError.Json "bad payload")) := by decide
  have a0 : (GetTransactions
      (scenarioWith 0 (FetchReply.unmarshalError (GoError.Json "bad payload"))) "0xA" 1).outcome =
      Outcome.ret [] (some (GoError.Json "bad payload")) := by decide
  rw [a1] at h1
  rw [a0] at h0
  cases h1
  cases h0
  omega

/-- The windows of a lookback of `d` days from tip `T`, in exact arithmetic. -/
theorem lookback_windows (address : String) (T d : Int) (i : Nat) :
    ({ address := address, startblock := T - 5760 * d + 1920 * i,
       endblock := T - 5760 * d + 1920 * (i + 1) } : Request).endblock =
    ({ address := address, startblock := T - 5760 * d + 1920 * ((i + 1 : Nat) : Int),
       endblock := T - 5760 * d + 1920 * (((i + 1 : Nat) : Int) + 1) } : Request).startblock := by
  simp only [Nat.cast_add, Nat.cast_one]

/-- C10 (as amended): if both oracle reads of one `GetTransactions` call return
the same tip `T`, `days = d ≥ 0`, neither `5760 * d` nor `T - 5760 * d` leaves
the `int64` range, and the GET of every window is decoded, then exactly `3 * d`
windows are requested, the end block of each window is the start block of the
next, the first window starts at `T - 5760 * d` and the last window ends at `T`. -/
theorem GetTransactions_covers_lookback (w : World) (address : String) (T d : Int)
    (h0 : GetLatestBlockNumber w 0 = Outcome.ret T none)
    (h1 : GetLatestBlockNumber w 1 = Outcome.ret T none)
    (hd : 0 ≤ d) (hmul : 5760 * d < 2 ^ 63) (hsub : -2 ^ 63 ≤ T - 5760 * d)
    (hok : ∀ i : Nat, (i : Int) < 3 * d →
      (w.txlist i (etherScanUrl { address := address, startblock := T - 5760 * d + 1920 * i,
                                  endblock := T - 5760 * d + 1920 * (i + 1) })).succeeded) :
    (GetTransactions w address d).calls.length = (3 * d).toNat ∧
    (∀ (i : Nat) (a b : Request), (GetTransactions w address d).calls[i]? = some a →
      (GetTransactions w address d).calls[i + 1]? = some b → a.endblock = b.startblock) ∧
    (∀ a : Request, (GetTransactions w address d).calls.head? = some a →
      a.startblock = T - 5760 * d) ∧
    (∀ b : Request, (GetTransactions w address d).calls.getLast? = some b →
      b.endblock = T) := by
  have hr := GetLatestBlockNumber_range h0
  have hs : GetStartingBlockNumber w 0 d = Outcome.ret (T - 5760 * d) none := by
    rw [GetStartingBlockNumber_eq h0]
    congr 1
    unfold wrap64 blocksPerDay
    omega
  have hq : (T - (T - 5760 * d)) / 1920 = 3 * d := by omega
  have hcalls := @GetTransactions_success w address d (T - 5760 * d) T hs h1 (fun j hj => by
    obtain ⟨_, hiff⟩ := @windowCount_of_no_overflow (T - 5760 * d) T ⟨by omega, by omega⟩
    have hj' := (hiff j).mp hj
    rw [@windowRequest_exact address (T - 5760 * d) T j hsub (by omega) (by omega) hj']
    exact hok j (by omega))
  have hn : (windowCount (T - 5760 * d) T).toNat = (3 * d).toNat := by
    rw [(@windowCount_of_no_overflow (T - 5760 * d) T ⟨by omega, by omega⟩).1, hq]
  have hreq : ∀ j : Nat, j < (3 * d).toNat →
      windowRequest address (T - 5760 * d) (j : Int) =
        { address := address, startblock := T - 5760 * d + 1920 * j,
          endblock := T - 5760 * d + 1920 * (j + 1) } := fun j hj =>
    @windowRequest_exact address (T - 5760 * d) T j hsub (by omega) (by omega) (by omega)
  rw [hcalls, hn]
  simp only [List.length_map, List.length_range, List.getElem?_map, List.head?_map,
    List.getLast?_map]
  refine ⟨trivial, ?_, ?_, ?_⟩
  · intro i a b ha hb
    have hi : i + 1 < (3 * d).toNat := by
      by_contra hc
      rw [List.getElem?_eq_none (by simp only [List.length_range]; omega)] at hb
      cases hb
    rw [List.getElem?_range (by omega)] at ha
    rw [List.getElem?_range hi] at hb
    cases ha
    cases hb
    dsimp only
    rw [hreq i (by omega), hreq (i + 1) hi]
    exact lookback_windows address T d i
  · intro a ha
    cases hz : (3 * d).toNat with
    | zero => rw [hz] at ha; cases ha
    | succ m =>
      rw [hz, List.range_succ_eq_map] at ha
      cases ha
      dsimp only
      rw [hreq 0 (by omega)]
      simp
  · intro b hb
    cases hz : (3 * d).toNat with
    | zero => rw [hz] at hb; cases hb
    | succ m =>
      rw [hz, List.range_succ, List.getLast?_concat] at hb
      cases hb
      dsimp only
      rw [hreq m (by omega)]
      show T - 5760 * d + 1920 * ((m : Int) + 1) = T
      omega

theorem GetTransactions_covers_lookback_witness :
    (GetTransactions scenarioWorld "0xA" 1).calls.length = (3 * (1 : Int)).toNat ∧
    (∀ (i : Nat) (a b : Request), (GetTransactions scenarioWorld "0xA" 1).calls[i]? = some a →
      (GetTransactions scenarioWorld "0xA" 1).calls[i + 1]? = some b →
      a.endblock = b.startblock) ∧
    (∀ a : Request, (GetTransactions scenarioWorld "0xA" 1).calls.head? = some a →
      a.startblock = 11520 - 5760 * 1) ∧
    (∀ b : Request, (GetTransactions scenarioWorld "0xA" 1).calls.getLast? = some b →
      b.endblock = 11520) :=
  GetTransactions_covers_lookback scenarioWorld "0xA" 11520 1 (by decide) (by decide)
    (by decide) (by decide) (by decide)
    (fun i _ => by unfold scenarioWorld; simp only []; split_ifs <;> exact ⟨_, rfl⟩)

/-- C10 fails as stated: with the same tip 11520 on both reads and `days = 1`
(no overflow), a first GET whose payload does not decode leaves one window
requested instead of three, and the last window requested ends at 7680, not at
the tip. -/
theorem GetTransactions_lookback_cut_short :
    GetLatestBlockNumber
        (scenarioWith 0 (FetchReply.unmarshalError (GoError.Json "EOF"))) 0 =
      Outcome.ret 11520 none ∧
    GetLatestBlockNumber
        (scenarioWith 0 (FetchReply.unmarshalError (GoError.Json "EOF"))) 1 =
      Outcome.ret 11520 none ∧
    GetTransactions (scenarioWith 0 (FetchReply.unmarshalError (GoError.Json "EOF"))) "0xA" 1 =
      { outcome := Outcome.ret [] (some (GoError.Json "EOF"))
        calls := [{ address := "0xA", startblock := 5760, endblock := 7680 }] } := by
  decide


end Helper
